import Mathlib

/-!
Shallow embedding of `src/withings2intervals/withings2intervals.py` (the
current revision of the withings_syncer program).  Pure data transformations
are translated as Lean functions; the effectful parts (HTTP calls, file
reads/writes, `sys.exit`) are made explicit: HTTP responses are inputs drawn
from a `World`, file writes and upload attempts are recorded in a `RunTrace`,
and `sys.exit(n)` becomes an `Except Nat` error / a nonzero `exit_code`.
-/

namespace WithingsSyncer

/-! ## Calendar dates

`datetime.fromtimestamp(ts).date()` is modelled at UTC (the claims under
study do not depend on the local-time offset): epoch day = `ts.fdiv 86400`,
converted to a civil date by the standard Gregorian algorithm. -/

/-- A calendar date, as `datetime.date(year, month, day)`. -/
structure Date where
  year : Int
  month : Int
  day : Int
deriving DecidableEq, Repr

/-- Gregorian civil date from a count of days since 1970-01-01 (the standard
days-to-civil algorithm, using floor division as Python's `//`). -/
def civilFromDays (z0 : Int) : Date :=
  let z := z0 + 719468
  let era := Int.fdiv z 146097
  let doe := z - era * 146097
  let yoe := Int.fdiv (doe - Int.fdiv doe 1460 + Int.fdiv doe 36524 - Int.fdiv doe 146096) 365
  let y := yoe + era * 400
  let doy := doe - (365 * yoe + Int.fdiv yoe 4 - Int.fdiv yoe 100)
  let mp := Int.fdiv (5 * doy + 2) 153
  let d := doy - Int.fdiv (153 * mp + 2) 5 + 1
  let m := mp + (if mp < 10 then 3 else -9)
  ⟨y + (if m ≤ 2 then 1 else 0), m, d⟩

/-- Models `datetime.fromtimestamp(group["date"]).date()` (at UTC). -/
def dateOfTimestamp (ts : Int) : Date :=
  civilFromDays (Int.fdiv ts 86400)

/-- Zero-pad a (nonnegative) integer to two digits, as `%02d`. -/
def pad2 (n : Int) : String :=
  if n < 10 then "0" ++ toString n else toString n

/-- Zero-pad a (nonnegative) integer to four digits, as `%04d`.  Python
`date` years are always in `1..9999`, so the nonnegative case is the only
reachable one. -/
def pad4 (n : Int) : String :=
  if n < 10 then "000" ++ toString n
  else if n < 100 then "00" ++ toString n
  else if n < 1000 then "0" ++ toString n
  else toString n

/-- Models Python `str(day)` for a `datetime.date`: the ISO format
`"%04d-%02d-%02d" % (year, month, day)`. -/
def strOfDate (d : Date) : String :=
  pad4 d.year ++ "-" ++ pad2 d.month ++ "-" ++ pad2 d.day

/-- Models `day.strftime("%Y-%m-%d")` as it behaves on the usual C library:
`%Y` prints the year as a plain decimal with no padding (so it differs from
`str(day)` only for years below 1000, which no Unix timestamp of this
program produces), `%m` and `%d` are zero-padded to two digits. -/
def strftime_Ymd (d : Date) : String :=
  toString d.year ++ "-" ++ pad2 d.month ++ "-" ++ pad2 d.day

/-- Lexicographic comparison of dates, the order `sorted` uses on
`datetime.date` keys. -/
def dateLe (a b : Date) : Prop :=
  a.year < b.year ∨ (a.year = b.year ∧
    (a.month < b.month ∨ (a.month = b.month ∧ a.day ≤ b.day)))

instance : DecidableRel dateLe := fun a b => by
  unfold dateLe; infer_instance

/-! ## Raw readings and configured fields -/

/-- One raw reading `{type, value, unit}` from a measure group. -/
structure Measure where
  type : Int
  value : Int
  unit : Int
deriving DecidableEq, Repr

/-- One reading group `{date: unix_ts, measures: [...]}`. -/
structure MeasureGroup where
  date : Int
  measures : List Measure
deriving DecidableEq, Repr

/-- The six optional output field names read from the `[Fields]` config
section (`config["Fields"].get(..., None)`). -/
structure Fields where
  weight_field : Option String
  bodyfat_field : Option String
  diastolic_field : Option String
  systolic_field : Option String
  muscle_field : Option String
  temp_field : Option String
deriving DecidableEq, Repr

/-- Python truthiness of an optional string: `None` and `""` are falsy. -/
def truthy : Option String → Bool
  | none => false
  | some s => !(s == "")

/-- The string behind a truthy optional field name. -/
def orEmpty (o : Option String) : String :=
  o.getD ""

/-- Exact value of Python `float(value * (10 ** unit))`: the reading scaled
by a power of ten, modelled over `ℚ` (the double rounding of the Python
expression is the identity on every value the claims mention). -/
def pow10 (u : Int) : ℚ :=
  if 0 ≤ u then (((10 : ℤ) ^ u.toNat : ℤ) : ℚ)
  else 1 / (((10 : ℤ) ^ (-u).toNat : ℤ) : ℚ)

/-- `m["value"] * (10 ** m["unit"])` as an exact rational. -/
def scaled (m : Measure) : ℚ :=
  (m.value : ℚ) * pow10 m.unit

/-! ## Day records and Python dicts

Python dicts are modelled as association lists; assignment overwrites an
existing key in place (preserving its position) and otherwise appends. -/

/-- A dict value: the day records hold floats and one string `id`. -/
inductive Val where
  | num (q : ℚ)
  | str (s : String)
deriving DecidableEq, Repr

/-- A per-day wellness record: one Python dict of field name to value. -/
abbrev DayRecord := List (String × Val)

/-- Python dict assignment `d[k] = v` on an association list. -/
def assocSet {α β : Type} [DecidableEq α] : List (α × β) → α → β → List (α × β)
  | [], k, v => [(k, v)]
  | (k0, v0) :: rest, k, v =>
    if k0 = k then (k, v) :: rest else (k0, v0) :: assocSet rest k v

/-- Python dict lookup `d.get(k)` on an association list. -/
def assocGet {α β : Type} [DecidableEq α] : List (α × β) → α → Option β
  | [], _ => none
  | (k0, v0) :: rest, k => if k0 = k then some v0 else assocGet rest k

/-! ## Day aggregation (the measure loop of `main`, lines 138-155) -/

/-- The body of `for m in group["measures"]`: the six independent `if`
statements that capture a reading into the day's record, in source order
(weight, bodyfat, muscle, diastolic, systolic, temperature). -/
def applyMeasure (F : Fields) (r0 : DayRecord) (m : Measure) : DayRecord :=
  let v : Val := .num (scaled m)
  let r := r0
  let r := if truthy F.weight_field && (m.type == 1) then assocSet r (orEmpty F.weight_field) v else r
  let r := if truthy F.bodyfat_field && (m.type == 6) then assocSet r (orEmpty F.bodyfat_field) v else r
  let r := if truthy F.muscle_field && (m.type == 76) then assocSet r (orEmpty F.muscle_field) v else r
  let r := if truthy F.diastolic_field && (m.type == 9) then assocSet r (orEmpty F.diastolic_field) v else r
  let r := if truthy F.systolic_field && (m.type == 10) then assocSet r (orEmpty F.systolic_field) v else r
  let r := if truthy F.temp_field && ((m.type == 71) || (m.type == 73)) then assocSet r (orEmpty F.temp_field) v else r
  r

/-- Whether some configured `if` of the measure loop fires for this reading
(the disjunction of the six guards of `applyMeasure`). -/
def capturable (F : Fields) (m : Measure) : Bool :=
  (truthy F.weight_field && (m.type == 1)) ||
  (truthy F.bodyfat_field && (m.type == 6)) ||
  (truthy F.muscle_field && (m.type == 76)) ||
  (truthy F.diastolic_field && (m.type == 9)) ||
  (truthy F.systolic_field && (m.type == 10)) ||
  (truthy F.temp_field && ((m.type == 71) || (m.type == 73)))

/-- The body of `for group in data["measuregrps"]`: create the day's dict
if absent, then fold the group's measures into it. -/
def processGroup (F : Fields) (w : List (Date × DayRecord)) (g : MeasureGroup) :
    List (Date × DayRecord) :=
  let day := dateOfTimestamp g.date
  let w' := if (assocGet w day).isNone then assocSet w day [] else w
  let r0 := (assocGet w' day).getD []
  assocSet w' day (g.measures.foldl (applyMeasure F) r0)

/-- The whole aggregation loop: fold all groups into the `wellness` dict. -/
def aggregate (F : Fields) (groups : List MeasureGroup) : List (Date × DayRecord) :=
  groups.foldl (processGroup F) []

/-! ## JSON and HTTP responses -/

/-- A JSON value (numbers restricted to integers, which is all the
program's payloads contain). -/
inductive Json where
  | null
  | num (n : Int)
  | str (s : String)
  | arr (elems : List Json)
  | obj (fields : List (String × Json))

/-- First binding of a key in a JSON object's field list. -/
def lookupField : List (String × Json) → String → Option Json
  | [], _ => none
  | (k0, v) :: rest, k => if k0 = k then some v else lookupField rest k

/-- Python `j[k]` on a parsed JSON value: `some` on an object holding the
key, `none` when the subscript would raise (`KeyError` / `TypeError`). -/
def Json.get : Json → String → Option Json
  | .obj fields, k => lookupField fields k
  | _, _ => none

/-- An HTTP response as `requests` exposes it to this program: the status
code, and `some j` when `res.json()` parses to `j` (`none` when the body is
not valid JSON, so `res.json()` raises). -/
structure HttpResponse where
  status : Nat
  body : Option Json

/-- Models `get_measurements` (lines 246-263): the transport argument is
`none` when `requests.get` raises, `some res` otherwise.  The `try` block
returns `res.json()["body"]`; any exception (transport, JSON parse, missing
key) reaches the `except` clause, which calls `sys.exit(1)` — modelled as
`Except.error 1`.  The HTTP status code is never examined. -/
def get_measurements (r : Option HttpResponse) : Except Nat Json :=
  match r with
  | none => .error 1
  | some res =>
    match res.body with
    | none => .error 1
    | some j =>
      match j.get "body" with
      | none => .error 1
      | some b => .ok b

/-! ## Token exchanges -/

/-- The credential record `out["body"]`: the token pair plus pass-through
provider fields. -/
structure TokenData where
  access_token : String
  refresh_token : String
  rest : List (String × String)
deriving DecidableEq, Repr

/-- A parsed OAuth endpoint response `{status, body}`. -/
structure OAuthOut where
  status : Int
  body : TokenData
deriving DecidableEq, Repr

/-- A file write performed by a token exchange: target path and the JSON
credential record dumped there. -/
structure FileWrite where
  path : String
  contents : TokenData
deriving DecidableEq, Repr

/-- Models `authenticate` (lines 192-216): `resp` is `none` when the POST
(or its JSON decoding) raises, `some out` otherwise.  On provider status 0
the body is dumped to the configured path `cfg` and the access token
returned; otherwise `sys.exit(1)`. -/
def authenticate (cfg : String) (resp : Option OAuthOut) :
    Except Nat (String × FileWrite) :=
  match resp with
  | none => .error 1
  | some out =>
    if out.status = 0 then .ok (out.body.access_token, ⟨cfg, out.body⟩)
    else .error 1

/-- Models `refresh` (lines 219-243): like `authenticate`, but the request
carries `token_data["refresh_token"]` and — on provider status 0 — the body
is dumped to the hardcoded path `"./withings.json"`, not to the configured
credential path. -/
def refresh (token_data : TokenData) (resp : Option OAuthOut) :
    Except Nat (String × FileWrite) :=
  match resp with
  | none => .error 1
  | some out =>
    if out.status = 0 then .ok (out.body.access_token, ⟨"./withings.json", out.body⟩)
    else .error 1

/-! ## Decoding the fetched body

`main` iterates `data["measuregrps"]` and subscripts each group and each
measure; a shape mismatch raises an uncaught exception (the process dies
with a nonzero exit).  The decoder returns `none` exactly in those cases. -/

/-- Decode one `{type, value, unit}` measure object. -/
def decodeMeasure : Json → Option Measure
  | .obj kvs =>
    match lookupField kvs "type", lookupField kvs "value", lookupField kvs "unit" with
    | some (.num t), some (.num v), some (.num u) => some ⟨t, v, u⟩
    | _, _, _ => none
  | _ => none

/-- Decode a list of measures, failing if any element fails. -/
def decodeMeasures : List Json → Option (List Measure)
  | [] => some []
  | j :: rest =>
    match decodeMeasure j, decodeMeasures rest with
    | some m, some ms => some (m :: ms)
    | _, _ => none

/-- Decode one `{date, measures}` group object. -/
def decodeGroup : Json → Option MeasureGroup
  | .obj kvs =>
    match lookupField kvs "date", lookupField kvs "measures" with
    | some (.num d), some (.arr ms) => (decodeMeasures ms).map fun l => ⟨d, l⟩
    | _, _ => none
  | _ => none

/-- Decode a list of group objects. -/
def decodeGroupList : List Json → Option (List MeasureGroup)
  | [] => some []
  | j :: rest =>
    match decodeGroup j, decodeGroupList rest with
    | some g, some gs => some (g :: gs)
    | _, _ => none

/-- Decode `data["measuregrps"]` out of the fetched body. -/
def decodeGroups (body : Json) : Option (List MeasureGroup) :=
  match body.get "measuregrps" with
  | some (.arr gs) => decodeGroupList gs
  | _ => none

/-! ## The sync ledger -/

/-- Models `load_synced_days` (lines 66-70): the parsed contents of
`synced_weights.json`, or the empty collection when the file is absent. -/
def load_synced_days (file : Option (List String)) : List String :=
  file.getD []

/-- Models `save_synced_days` (lines 73-75): the list dumped back to
`synced_weights.json`. -/
def save_synced_days (synced_days : List String) : List String :=
  synced_days

/-- Python `set.add` on the list model of a set: append if absent. -/
def setInsert (s : List String) (x : String) : List String :=
  if x ∈ s then s else s ++ [x]

/-- Python `set(l)`: deduplicate by folding `setInsert`. -/
def setOf (l : List String) : List String :=
  l.foldl setInsert []

/-! ## Uploads and the sync loop (lines 156-169, 173-189) -/

/-- The outcome of one `requests.put` upload. -/
inductive UploadOutcome where
  | success
  | httpError (code : Nat)
  | transportError
deriving DecidableEq, Repr

/-- The `id` string an upload is addressed by (`event["id"]`). -/
def idString (event : DayRecord) : String :=
  match assocGet event "id" with
  | some (.str s) => s
  | _ => ""

/-- Models `set_wellness` (lines 173-189): one PUT addressed by
`event["id"]`, whose outcome is drawn from the `oracle`.  A non-200 status
is only logged; a transport exception is caught by the bare `except` and
logged.  The function returns no value, so its caller cannot observe the
outcome; the model returns it only so the run trace can record it. -/
def set_wellness (oracle : String → UploadOutcome) (event : DayRecord) :
    UploadOutcome :=
  oracle (idString event)

/-- The observable result of the upload loop: every attempted upload (the
record sent and its outcome) and the final in-memory ledger. -/
structure SyncResult where
  uploads : List (DayRecord × UploadOutcome)
  ledger : List String
deriving DecidableEq, Repr

/-- Models the loop `for day, data in sorted(wellness.items())` (lines
156-165): skip a day already in `synced_days` unless `--force-resync`;
otherwise attach `data["id"]`, call `set_wellness`, and add `str(day)` to
`synced_days` — unconditionally, whatever the upload outcome was. -/
def syncLoop (oracle : String → UploadOutcome) (force : Bool)
    (synced : List String) : List (Date × DayRecord) → SyncResult
  | [] => ⟨[], synced⟩
  | (day, data) :: rest =>
    if strOfDate day ∈ synced ∧ force = false then
      syncLoop oracle force synced rest
    else
      let data' := assocSet data "id" (.str (strftime_Ymd day))
      let outcome := set_wellness oracle data'
      let r := syncLoop oracle force (setInsert synced (strOfDate day)) rest
      ⟨(data', outcome) :: r.uploads, r.ledger⟩

/-- The wellness dict in the iteration order of
`sorted(wellness.items())`: ascending by date key. -/
def sortedByDay (w : List (Date × DayRecord)) : List (Date × DayRecord) :=
  w.insertionSort fun a b => dateLe a.1 b.1

/-- The post-fetch pipeline of `main`: load and deduplicate the ledger,
aggregate, iterate the sorted wellness dict through the upload loop. -/
def runPipeline (F : Fields) (oracle : String → UploadOutcome) (force : Bool)
    (syncedFile : Option (List String)) (groups : List MeasureGroup) :
    SyncResult :=
  syncLoop oracle force (setOf (load_synced_days syncedFile))
    (sortedByDay (aggregate F groups))

/-! ## The whole run (`main`, lines 78-170) -/

/-- The invocation parameters `main` consults on the paths under study
(the `--start` override only re-parametrises the fetch request, which is
already abstracted by `World.fetchResp`). -/
structure Args where
  auth_code : Option String
  force_resync : Bool

/-- The run's external inputs: the credential file's contents (`none` when
the file is absent), the OAuth endpoint's responses, the measurement
query's response, the ledger file's contents, and the per-id upload
outcomes. -/
structure World where
  credFile : Option TokenData
  refreshResp : Option OAuthOut
  authResp : Option OAuthOut
  fetchResp : Option HttpResponse
  syncedFile : Option (List String)
  oracle : String → UploadOutcome

/-- The observable effects of one run: how many measurement fetches were
issued, the uploads attempted, the credential-file writes performed, the
ledger dumped at run end (`none` when the run died before
`save_synced_days`), and the process exit code. -/
structure RunTrace where
  fetch_calls : Nat
  uploads : List (DayRecord × UploadOutcome)
  cred_writes : List FileWrite
  saved_ledger : Option (List String)
  exit_code : Nat
deriving DecidableEq, Repr

/-- The `Authenticate or refresh token` block of `main` (lines 104-117):
refresh when the credential file exists, else bootstrap from `--auth-code`,
else `sys.exit(1)`. -/
def resolveCredentials (cfg : String) (auth_code : Option String)
    (credFile : Option TokenData) (refreshResp authResp : Option OAuthOut) :
    Except Nat (String × List FileWrite) :=
  match credFile with
  | some td => (refresh td refreshResp).map fun r => (r.1, [r.2])
  | none =>
    match auth_code with
    | some _ => (authenticate cfg authResp).map fun r => (r.1, [r.2])
    | none => .error 1

/-- Models `main` (lines 78-170) as a function from configuration,
invocation parameters and world to the run's observable trace. -/
def main (F : Fields) (cfg : String) (args : Args) (w : World) : RunTrace :=
  match resolveCredentials cfg args.auth_code w.credFile w.refreshResp w.authResp with
  | .error c => ⟨0, [], [], none, c⟩
  | .ok (_tok, writes) =>
    match get_measurements w.fetchResp with
    | .error c => ⟨1, [], writes, none, c⟩
    | .ok body =>
      match decodeGroups body with
      | none => ⟨1, [], writes, none, 1⟩
      | some groups =>
        let r := runPipeline F w.oracle args.force_resync w.syncedFile groups
        ⟨1, r.uploads, writes, some (save_synced_days r.ledger), 0⟩

/-! ## Helper lemmas about the dict and set models -/

theorem assocGet_assocSet_self {α β : Type} [DecidableEq α]
    (w : List (α × β)) (k : α) (v : β) :
    assocGet (assocSet w k v) k = some v := by
  induction w with
  | nil => simp [assocSet, assocGet]
  | cons p rest ih =>
    obtain ⟨k0, v0⟩ := p
    by_cases h : k0 = k
    · simp [assocSet, assocGet, h]
    · simp [assocSet, assocGet, h, ih]

theorem assocGet_assocSet_ne {α β : Type} [DecidableEq α]
    (w : List (α × β)) (k k' : α) (v : β) (h : k' ≠ k) :
    assocGet (assocSet w k' v) k = assocGet w k := by
  induction w with
  | nil => simp [assocSet, assocGet, h]
  | cons p rest ih =>
    obtain ⟨k0, v0⟩ := p
    by_cases h0 : k0 = k'
    · subst h0
      simp [assocSet, assocGet, h]
    · simp only [assocSet, if_neg h0]
      by_cases hk : k0 = k
      · simp [assocGet, hk]
      · simp [assocGet, hk, ih]

theorem isSome_assocGet_assocSet {α β : Type} [DecidableEq α]
    (w : List (α × β)) (k k' : α) (v : β)
    (h : (assocGet w k).isSome = true) :
    (assocGet (assocSet w k' v) k).isSome = true := by
  by_cases hk : k' = k
  · subst hk; simp [assocGet_assocSet_self]
  · rw [assocGet_assocSet_ne w k k' v hk]; exact h

theorem mem_setInsert_iff (s : List String) (x y : String) :
    y ∈ setInsert s x ↔ y ∈ s ∨ y = x := by
  unfold setInsert
  by_cases h : x ∈ s
  · simp only [if_pos h]
    constructor
    · exact Or.inl
    · rintro (hy | rfl)
      · exact hy
      · exact h
  · simp [if_neg h]

theorem mem_foldl_setInsert (l acc : List String) (x : String) :
    x ∈ l.foldl setInsert acc ↔ x ∈ acc ∨ x ∈ l := by
  induction l generalizing acc with
  | nil => simp
  | cons a t ih =>
    simp only [List.foldl_cons, ih, mem_setInsert_iff, List.mem_cons]
    tauto

theorem mem_setOf_iff (l : List String) (x : String) :
    x ∈ setOf l ↔ x ∈ l := by
  simpa [setOf] using mem_foldl_setInsert l [] x

theorem idString_assocSet_id (r : DayRecord) (s : String) :
    idString (assocSet r "id" (.str s)) = s := by
  simp [idString, assocGet_assocSet_self]

/-! ## Helper lemmas about aggregation -/

theorem applyMeasure_not_capturable (F : Fields) (r : DayRecord) (m : Measure)
    (h : capturable F m = false) : applyMeasure F r m = r := by
  rw [capturable] at h
  rw [Bool.or_eq_false_iff] at h
  obtain ⟨h', h6⟩ := h
  rw [Bool.or_eq_false_iff] at h'
  obtain ⟨h', h5⟩ := h'
  rw [Bool.or_eq_false_iff] at h'
  obtain ⟨h', h4⟩ := h'
  rw [Bool.or_eq_false_iff] at h'
  obtain ⟨h', h3⟩ := h'
  rw [Bool.or_eq_false_iff] at h'
  obtain ⟨h1, h2⟩ := h'
  simp only [applyMeasure, h1, h2, h3, h4, h5, h6, if_false, Bool.false_eq_true]

theorem foldl_applyMeasure_filter (F : Fields) (ms : List Measure) (r : DayRecord) :
    (ms.filter fun m => capturable F m).foldl (applyMeasure F) r =
      ms.foldl (applyMeasure F) r := by
  induction ms generalizing r with
  | nil => rfl
  | cons m rest ih =>
    by_cases hc : capturable F m = true
    · simp [List.filter_cons, hc, ih]
    · have hc' : capturable F m = false := by simpa using hc
      simp [List.filter_cons, hc', ih, applyMeasure_not_capturable F r m hc']

theorem foldl_applyMeasure_all_not (F : Fields) (ms : List Measure) (r : DayRecord)
    (h : ∀ m ∈ ms, capturable F m = false) :
    ms.foldl (applyMeasure F) r = r := by
  induction ms generalizing r with
  | nil => rfl
  | cons m rest ih =>
    rw [List.foldl_cons,
      applyMeasure_not_capturable F r m (h m (List.mem_cons_self m rest))]
    exact ih r fun m' hm' => h m' (List.mem_cons_of_mem m hm')

theorem processGroup_filter (F : Fields) (w : List (Date × DayRecord)) (g : MeasureGroup) :
    processGroup F w ⟨g.date, g.measures.filter fun m => capturable F m⟩ =
      processGroup F w g := by
  simp [processGroup, foldl_applyMeasure_filter]

theorem isSome_assocGet_processGroup_self (F : Fields) (w : List (Date × DayRecord))
    (g : MeasureGroup) :
    (assocGet (processGroup F w g) (dateOfTimestamp g.date)).isSome = true := by
  simp [processGroup, assocGet_assocSet_self]

theorem isSome_assocGet_processGroup (F : Fields) (w : List (Date × DayRecord))
    (g : MeasureGroup) (k : Date) (h : (assocGet w k).isSome = true) :
    (assocGet (processGroup F w g) k).isSome = true := by
  unfold processGroup
  apply isSome_assocGet_assocSet
  split
  · exact isSome_assocGet_assocSet _ _ _ _ h
  · exact h

theorem isSome_assocGet_foldl_processGroup (F : Fields) (gs : List MeasureGroup)
    (w : List (Date × DayRecord)) (k : Date) (h : (assocGet w k).isSome = true) :
    (assocGet (gs.foldl (processGroup F) w) k).isSome = true := by
  induction gs generalizing w with
  | nil => exact h
  | cons g rest ih =>
    exact ih _ (isSome_assocGet_processGroup F w g k h)

theorem isSome_assocGet_aggregate_of_mem (F : Fields) (groups : List MeasureGroup)
    (g : MeasureGroup) (hg : g ∈ groups) :
    (assocGet (aggregate F groups) (dateOfTimestamp g.date)).isSome = true := by
  suffices h : ∀ (gs : List MeasureGroup) (w : List (Date × DayRecord)), g ∈ gs →
      (assocGet (gs.foldl (processGroup F) w) (dateOfTimestamp g.date)).isSome = true by
    exact h groups [] hg
  intro gs
  induction gs with
  | nil => intro w hmem; cases hmem
  | cons q rest ih =>
    intro w hmem
    rcases List.mem_cons.mp hmem with rfl | hmem'
    · exact isSome_assocGet_foldl_processGroup F rest _ _
        (isSome_assocGet_processGroup_self F w g)
    · exact ih _ hmem'

/-! ## Helper lemmas about the upload loop -/

theorem mem_ledger_of_mem_synced (oracle : String → UploadOutcome) (force : Bool)
    (items : List (Date × DayRecord)) (synced : List String) (s : String)
    (hs : s ∈ synced) : s ∈ (syncLoop oracle force synced items).ledger := by
  induction items generalizing synced with
  | nil => simpa [syncLoop] using hs
  | cons p rest ih =>
    obtain ⟨day, data⟩ := p
    simp only [syncLoop]
    split
    · exact ih synced hs
    · exact ih _ ((mem_setInsert_iff _ _ _).mpr (Or.inl hs))

theorem strOfDate_mem_ledger (oracle : String → UploadOutcome) (force : Bool)
    (items : List (Date × DayRecord)) (synced : List String)
    (p : Date × DayRecord) (hp : p ∈ items) :
    strOfDate p.1 ∈ (syncLoop oracle force synced items).ledger := by
  induction items generalizing synced with
  | nil => cases hp
  | cons q rest ih =>
    obtain ⟨day, data⟩ := q
    simp only [syncLoop]
    rcases List.mem_cons.mp hp with heq | hmem
    · subst heq
      split
      case isTrue h =>
        exact mem_ledger_of_mem_synced oracle force rest synced _ h.1
      case isFalse h =>
        exact mem_ledger_of_mem_synced oracle force rest _ _
          ((mem_setInsert_iff _ _ _).mpr (Or.inr rfl))
    · split
      · exact ih synced hmem
      · exact ih _ hmem

theorem syncLoop_skipAll (oracle : String → UploadOutcome)
    (items : List (Date × DayRecord)) (synced : List String)
    (hall : ∀ p ∈ items, strOfDate p.1 ∈ synced) :
    syncLoop oracle false synced items = ⟨[], synced⟩ := by
  induction items with
  | nil => rfl
  | cons q rest ih =>
    obtain ⟨day, data⟩ := q
    have hd : strOfDate day ∈ synced := hall (day, data) (List.mem_cons_self _ _)
    simp only [syncLoop]
    split
    case isTrue h =>
      exact ih fun p hp => hall p (List.mem_cons_of_mem _ hp)
    case isFalse h =>
      exact absurd ⟨hd, trivial⟩ h

theorem syncLoop_noskip (oracle : String → UploadOutcome)
    (items : List (Date × DayRecord)) (synced : List String)
    (hout : ∀ p ∈ items, strOfDate p.1 ∉ synced)
    (hnd : (items.map fun p => strOfDate p.1).Nodup) :
    syncLoop oracle false synced items =
      ⟨items.map fun p =>
          (assocSet p.2 "id" (.str (strftime_Ymd p.1)), oracle (strftime_Ymd p.1)),
        synced ++ items.map fun p => strOfDate p.1⟩ := by
  induction items generalizing synced with
  | nil => simp [syncLoop]
  | cons q rest ih =>
    obtain ⟨day, data⟩ := q
    have hd : strOfDate day ∉ synced := hout (day, data) (List.mem_cons_self _ _)
    rw [List.map_cons] at hnd
    have hnd0 := List.nodup_cons.mp hnd
    have hout' : ∀ p ∈ rest, strOfDate p.1 ∉ setInsert synced (strOfDate day) := by
      intro p hp hcon
      rcases (mem_setInsert_iff _ _ _).mp hcon with h | h
      · exact hout p (List.mem_cons_of_mem _ hp) h
      · refine hnd0.1 ?_
        rw [List.mem_map]
        exact ⟨p, hp, h⟩
    simp only [syncLoop]
    split
    case isTrue h => exact absurd h.1 hd
    case isFalse h =>
      rw [ih _ hout' hnd0.2]
      have hins : setInsert synced (strOfDate day) = synced ++ [strOfDate day] := by
        rw [setInsert, if_neg hd]
      simp [set_wellness, idString_assocSet_id, hins, List.append_assoc]

theorem aggregate_filter_capturable (F : Fields) (groups : List MeasureGroup) :
    aggregate F (groups.map fun g =>
        ⟨g.date, g.measures.filter fun m => capturable F m⟩) = aggregate F groups := by
  unfold aggregate
  rw [List.foldl_map]
  suffices h : ∀ (gs : List MeasureGroup) (w : List (Date × DayRecord)),
      gs.foldl (fun w g =>
        processGroup F w ⟨g.date, g.measures.filter fun m => capturable F m⟩) w =
      gs.foldl (processGroup F) w by
    exact h groups []
  intro gs
  induction gs with
  | nil => intro w; rfl
  | cons g rest ih =>
    intro w
    simp only [List.foldl_cons]
    rw [processGroup_filter]
    exact ih _

/-! ## Sample inputs for the concrete instances below -/

/-- A field configuration with only the weight field set. -/
def sampleFields : Fields := ⟨some "weight", none, none, none, none, none⟩

/-- One reading group: a single weight reading of 70.5 kg on 1970-01-01. -/
def sampleGroup : MeasureGroup := ⟨0, [⟨1, 705, -1⟩]⟩

/-- An upload oracle reporting success for every id. -/
def okOracle : String → UploadOutcome := fun _ => .success

/-- A group holding a configured weight reading and an unconfigured
bodyfat reading, both on 1970-01-01. -/
def mixedGroup : MeasureGroup := ⟨0, [⟨1, 705, -1⟩, ⟨6, 2005, -2⟩]⟩

/-- A group holding only an unconfigured bodyfat reading on 1970-01-01. -/
def bodyfatGroup : MeasureGroup := ⟨0, [⟨6, 2005, -2⟩]⟩

/-- A fetched response body holding two days of weight readings
(2024-01-01 and 2024-01-02). -/
def fetchBodyC1 : Json :=
  .obj [("status", .num 0),
        ("body", .obj [("measuregrps", .arr
          [.obj [("date", .num 1704067200),
                 ("measures", .arr
                   [.obj [("type", .num 1), ("value", .num 700), ("unit", .num (-1))]])],
           .obj [("date", .num 1704153600),
                 ("measures", .arr
                   [.obj [("type", .num 1), ("value", .num 705), ("unit", .num (-1))]])]])])]

/-- A world in which the upload for 2024-01-01 fails with HTTP 500 while
the upload for 2024-01-02 succeeds. -/
def worldC1 : World :=
  { credFile := some ⟨"old_access", "old_refresh", []⟩
    refreshResp := some ⟨0, ⟨"new_access", "new_refresh", []⟩⟩
    authResp := none
    fetchResp := some ⟨200, some fetchBodyC1⟩
    syncedFile := none
    oracle := fun id => if id == "2024-01-01" then .httpError 500 else .success }

/-- A world with no stored credential file. -/
def worldNoCred : World :=
  { credFile := none, refreshResp := none, authResp := none,
    fetchResp := none, syncedFile := none, oracle := okOracle }

/-! ## Claims -/

/-- C1: the claim states that a date enters the ledger only when its upload
reports success, so after a run where day A fails and day B succeeds the
ledger holds B but not A.  The code adds `str(day)` to `synced_days`
unconditionally after the `set_wellness` call (which swallows every failure
and returns nothing), so in a run where 2024-01-01's upload returns HTTP
500 and 2024-01-02's succeeds, the persisted ledger contains BOTH days —
the failed day included — and the process exits zero. -/
theorem C1_failed_upload_day_still_in_ledger :
    (main sampleFields "tokens.json" ⟨none, false⟩ worldC1).uploads.map Prod.snd =
      [.httpError 500, .success] ∧
    (main sampleFields "tokens.json" ⟨none, false⟩ worldC1).saved_ledger =
      some ["2024-01-01", "2024-01-02"] ∧
    (main sampleFields "tokens.json" ⟨none, false⟩ worldC1).exit_code = 0 := by
  decide

/-- C2: the claim states that both credential exchanges persist the
response body to the operator-configured credential file path.
`authenticate` does write to the configured path, but `refresh` writes to
the hardcoded path `"./withings.json"` regardless of the configured path —
so with any configured path other than `"./withings.json"` the refreshed
token pair is never persisted where the next run reads it. -/
theorem C2_refresh_writes_hardcoded_path :
    refresh ⟨"old_access", "old_refresh", []⟩
        (some ⟨0, ⟨"new_access", "new_refresh", []⟩⟩) =
      .ok ("new_access", ⟨"./withings.json", ⟨"new_access", "new_refresh", []⟩⟩) ∧
    authenticate "tokens.json" (some ⟨0, ⟨"new_access", "new_refresh", []⟩⟩) =
      .ok ("new_access", ⟨"tokens.json", ⟨"new_access", "new_refresh", []⟩⟩) ∧
    ("./withings.json" : String) ≠ "tokens.json" := by
  refine ⟨rfl, rfl, by decide⟩

/-- C3: with identical source data and no force-resync, running the
pipeline twice uploads each aggregated calendar day exactly once: the first
run (starting from no ledger file) issues one upload per day of the
aggregated wellness dict, and the second run, loading the ledger the first
run persisted, uploads nothing.  The hypothesis states that the day keys'
ledger strings are pairwise distinct, which holds for every real wellness
dict (its keys are distinct dates). -/
theorem C3_rerun_idempotent (F : Fields) (or1 or2 : String → UploadOutcome)
    (groups : List MeasureGroup)
    (hnd : ((aggregate F groups).map fun p => strOfDate p.1).Nodup) :
    (runPipeline F or1 false none groups).uploads.length =
      (aggregate F groups).length ∧
    (runPipeline F or2 false
        (some (save_synced_days (runPipeline F or1 false none groups).ledger))
        groups).uploads = [] := by
  have hperm : List.Perm (sortedByDay (aggregate F groups)) (aggregate F groups) :=
    List.perm_insertionSort _ _
  have hnd' : ((sortedByDay (aggregate F groups)).map fun p => strOfDate p.1).Nodup :=
    ((hperm.map _).nodup_iff).mpr hnd
  have h1 : runPipeline F or1 false none groups =
      ⟨(sortedByDay (aggregate F groups)).map fun p =>
          (assocSet p.2 "id" (.str (strftime_Ymd p.1)), or1 (strftime_Ymd p.1)),
        [] ++ (sortedByDay (aggregate F groups)).map fun p => strOfDate p.1⟩ :=
    syncLoop_noskip or1 _ [] (fun p _ => List.not_mem_nil _) hnd'
  constructor
  · rw [h1]
    simp [hperm.length_eq]
  · have hall : ∀ p ∈ sortedByDay (aggregate F groups),
        strOfDate p.1 ∈ setOf (load_synced_days
          (some (save_synced_days (runPipeline F or1 false none groups).ledger))) := by
      intro p hp
      rw [mem_setOf_iff]
      show strOfDate p.1 ∈ (runPipeline F or1 false none groups).ledger
      rw [h1]
      simp only [List.nil_append]
      exact List.mem_map_of_mem _ hp
    have h2 : runPipeline F or2 false
        (some (save_synced_days (runPipeline F or1 false none groups).ledger)) groups =
        ⟨[], setOf (load_synced_days
          (some (save_synced_days (runPipeline F or1 false none groups).ledger)))⟩ :=
      syncLoop_skipAll or2 _ _ hall
    rw [h2]

/-- C3 witness: the idempotence theorem instantiated at one concrete
group with a weight reading and success uploads. -/
theorem C3_rerun_idempotent_witness :
    ((aggregate sampleFields [sampleGroup]).map fun p => strOfDate p.1).Nodup ∧
    ((runPipeline sampleFields okOracle false none [sampleGroup]).uploads.length =
        (aggregate sampleFields [sampleGroup]).length ∧
      (runPipeline sampleFields okOracle false
          (some (save_synced_days
            (runPipeline sampleFields okOracle false none [sampleGroup]).ledger))
          [sampleGroup]).uploads = []) :=
  ⟨by decide, C3_rerun_idempotent sampleFields okOracle okOracle [sampleGroup] (by decide)⟩

/-- C4 counterexample: the claim states every non-2xx HTTP status aborts
the run, but `get_measurements` never inspects the status code — a
status-500 response whose JSON body carries a `"body"` key is returned as a
successful result. -/
theorem C4_non2xx_not_fatal :
    get_measurements
        (some ⟨500, some (.obj [("body", .obj [("measuregrps", .arr [])])])⟩) =
      .ok (.obj [("measuregrps", .arr [])]) := rfl

/-- C4 (amended): the fetch aborts the run with exit code 1 exactly when
the transport raises, the response body is not valid JSON, or the parsed
body lacks the top-level `"body"` key; whenever it returns a result, that
result is exactly the `"body"` value of the parsed response — the HTTP
status code is never examined. -/
theorem C4_fetch_error_conditions (r : Option HttpResponse) :
    (get_measurements r = .error 1 ↔
      r = none ∨ (∃ st, r = some ⟨st, none⟩) ∨
        (∃ st j, r = some ⟨st, some j⟩ ∧ j.get "body" = none)) ∧
    ∀ b, get_measurements r = .ok b →
      ∃ st j, r = some ⟨st, some j⟩ ∧ j.get "body" = some b := by
  rcases r with _ | ⟨st, body⟩
  · constructor
    · simp [get_measurements]
    · intro b hb
      simp [get_measurements] at hb
  · rcases body with _ | j
    · constructor
      · simp [get_measurements]
      · intro b hb
        simp [get_measurements] at hb
    · rcases hj : j.get "body" with _ | b0
      · constructor
        · simp [get_measurements, hj]
          exact ⟨st, j, ⟨rfl, rfl⟩, hj⟩
        · intro b hb
          simp [get_measurements, hj] at hb
      · constructor
        · simp [get_measurements, hj]
        · intro b hb
          simp [get_measurements, hj] at hb
          exact ⟨st, j, rfl, by rw [hj, hb]⟩

/-- C4 witness: a raised transport call makes the fetch exit fatally. -/
theorem C4_fetch_error_conditions_witness :
    get_measurements none = Except.error 1 :=
  (C4_fetch_error_conditions none).1.mpr (Or.inl rfl)

/-- C5: the ledger is monotone within a run, for every combination of
upload outcomes (the oracle), force-resync flag, prior ledger file and
source data: every date string loaded at run start is still in the ledger
persisted at run end, and every day iterated by the upload loop — in
particular every already-synced day under force-resync — is in it as well;
no date is ever removed. -/
theorem C5_ledger_monotone (F : Fields) (oracle : String → UploadOutcome)
    (force : Bool) (syncedFile : Option (List String)) (groups : List MeasureGroup) :
    (∀ s, s ∈ setOf (load_synced_days syncedFile) →
        s ∈ (runPipeline F oracle force syncedFile groups).ledger) ∧
    (∀ p, p ∈ sortedByDay (aggregate F groups) →
        strOfDate p.1 ∈ (runPipeline F oracle force syncedFile groups).ledger) := by
  constructor
  · intro s hs
    exact mem_ledger_of_mem_synced oracle force (sortedByDay (aggregate F groups)) _ s hs
  · intro p hp
    exact strOfDate_mem_ledger oracle force (sortedByDay (aggregate F groups)) _ p hp

/-- C5 witness: with force-resync set and an already-synced day, the loaded
date string survives into the final ledger. -/
theorem C5_ledger_monotone_witness :
    "1970-01-01" ∈ setOf (load_synced_days (some ["1970-01-01"])) ∧
    "1970-01-01" ∈ (runPipeline sampleFields okOracle true
        (some ["1970-01-01"]) [sampleGroup]).ledger :=
  ⟨by decide, (C5_ledger_monotone sampleFields okOracle true (some ["1970-01-01"])
      [sampleGroup]).1 "1970-01-01" (by decide)⟩

/-- C6: the string used to test ledger membership, `str(day)`, equals the
string attached as the record `id` and stored in the ledger,
`day.strftime("%Y-%m-%d")`, for every date with a four-digit year — which
covers every date this program derives from a Unix timestamp (all are in
1970..9999; below year 1000 the `%Y` directive is platform-dependent and
unpadded on the usual C library, which the hypothesis excludes). -/
theorem C6_membership_string_matches_id (d : Date) (h : 1000 ≤ d.year) :
    strOfDate d = strftime_Ymd d := by
  unfold strOfDate strftime_Ymd pad4
  rw [if_neg (by omega), if_neg (by omega), if_neg (by omega)]

/-- C6 witness: the two date renderings agree at 2024-01-02. -/
theorem C6_membership_string_matches_id_witness :
    1000 ≤ (Date.mk 2024 1 2).year ∧
      strOfDate ⟨2024, 1, 2⟩ = strftime_Ymd ⟨2024, 1, 2⟩ :=
  ⟨by decide, C6_membership_string_matches_id ⟨2024, 1, 2⟩ (by decide)⟩

/-- C7: a raw reading `{type: 1, value: 705, unit: -1}` under a configured
weight field aggregates to exactly 70.5 (as the exact value 141/2 of
`value * 10 ^ unit`) under that field name — not an integer truncation. -/
theorem C7_field_scaling :
    aggregate ⟨some "weight", none, none, none, none, none⟩ [⟨0, [⟨1, 705, -1⟩]⟩] =
      [(⟨1970, 1, 1⟩, [("weight", Val.num (scaled ⟨1, 705, -1⟩))])] ∧
    scaled ⟨1, 705, -1⟩ = 141 / 2 ∧ (141 / 2 : ℚ) ≠ 70 := by
  refine ⟨rfl, ?_, by norm_num⟩
  rw [scaled, pow10]
  norm_num

/-- C8: removing every reading whose type code has no configured output
field from every group leaves the aggregation result unchanged — such
readings never contribute to any field of any Day Record and raise no
error — and a Day Record is still produced for each group's calendar date
(so the record survives when other readings of the date are configured). -/
theorem C8_unconfigured_readings_dropped (F : Fields) (groups : List MeasureGroup) :
    aggregate F (groups.map fun g =>
        ⟨g.date, g.measures.filter fun m => capturable F m⟩) = aggregate F groups ∧
    ∀ g ∈ groups, (assocGet (aggregate F groups) (dateOfTimestamp g.date)).isSome = true :=
  ⟨aggregate_filter_capturable F groups,
   fun g hg => isSome_assocGet_aggregate_of_mem F groups g hg⟩

/-- C8 witness: a group mixing a configured weight reading with an
unconfigured bodyfat reading aggregates as if the bodyfat reading were
absent, and its day record exists. -/
theorem C8_unconfigured_readings_dropped_witness :
    (aggregate sampleFields ([mixedGroup].map fun g =>
        ⟨g.date, g.measures.filter fun m => capturable sampleFields m⟩) =
      aggregate sampleFields [mixedGroup]) ∧
    (assocGet (aggregate sampleFields [mixedGroup])
        (dateOfTimestamp mixedGroup.date)).isSome = true :=
  ⟨(C8_unconfigured_readings_dropped sampleFields [mixedGroup]).1,
   (C8_unconfigured_readings_dropped sampleFields [mixedGroup]).2
     mixedGroup (by decide)⟩

/-- C9: with no stored credential file and no authorization code supplied,
the run exits nonzero before issuing any measurement fetch or any upload,
whatever the configuration and the rest of the world. -/
theorem C9_bootstrap_without_code_exits (F : Fields) (cfg : String) (args : Args)
    (w : World) (hc : w.credFile = none) (ha : args.auth_code = none) :
    (main F cfg args w).exit_code ≠ 0 ∧ (main F cfg args w).fetch_calls = 0 ∧
      (main F cfg args w).uploads = [] := by
  have hm : main F cfg args w = ⟨0, [], [], none, 1⟩ := by
    unfold main resolveCredentials
    rw [hc, ha]
  rw [hm]
  exact ⟨by decide, rfl, rfl⟩

/-- C9 witness: the bootstrap theorem at a concrete credential-free run. -/
theorem C9_bootstrap_without_code_exits_witness :
    worldNoCred.credFile = none ∧ (Args.mk none false).auth_code = none ∧
    ((main sampleFields "config.json" ⟨none, false⟩ worldNoCred).exit_code ≠ 0 ∧
      (main sampleFields "config.json" ⟨none, false⟩ worldNoCred).fetch_calls = 0 ∧
      (main sampleFields "config.json" ⟨none, false⟩ worldNoCred).uploads = []) :=
  ⟨rfl, rfl, C9_bootstrap_without_code_exits sampleFields "config.json" ⟨none, false⟩
      worldNoCred rfl rfl⟩

/-- C10: a Day Record is created for every group's calendar date even when
none of the group's readings has a configured field, and — when that date
is not in the loaded ledger — the record consisting of only the `id` key is
uploaded and the date is added to the ledger. -/
theorem C10_empty_day_record_uploaded (F : Fields) (oracle : String → UploadOutcome)
    (g : MeasureGroup) (ledger0 : List String)
    (h1 : strOfDate (dateOfTimestamp g.date) ∉ setOf ledger0)
    (h2 : ∀ m ∈ g.measures, capturable F m = false) :
    (∀ groups, g ∈ groups →
        (assocGet (aggregate F groups) (dateOfTimestamp g.date)).isSome = true) ∧
    (runPipeline F oracle false (some ledger0) [g]).uploads =
      [([("id", Val.str (strftime_Ymd (dateOfTimestamp g.date)))],
        oracle (strftime_Ymd (dateOfTimestamp g.date)))] ∧
    strOfDate (dateOfTimestamp g.date) ∈
      (runPipeline F oracle false (some ledger0) [g]).ledger := by
  have hfold : g.measures.foldl (applyMeasure F) [] = [] :=
    foldl_applyMeasure_all_not F g.measures [] h2
  have haggr : aggregate F [g] = [(dateOfTimestamp g.date, [])] := by
    unfold aggregate processGroup
    simp [assocGet, assocSet, hfold]
  have hrun : runPipeline F oracle false (some ledger0) [g] =
      ⟨[([("id", Val.str (strftime_Ymd (dateOfTimestamp g.date)))],
          oracle (strftime_Ymd (dateOfTimestamp g.date)))],
        setInsert (setOf ledger0) (strOfDate (dateOfTimestamp g.date))⟩ := by
    show syncLoop oracle false (setOf (load_synced_days (some ledger0)))
        (sortedByDay (aggregate F [g])) = _
    rw [haggr]
    show syncLoop oracle false (setOf ledger0) [(dateOfTimestamp g.date, [])] = _
    simp only [syncLoop]
    split
    case isTrue hcon => exact absurd hcon.1 h1
    case isFalse hcon =>
      simp [syncLoop, set_wellness, idString, assocGet, assocSet]
  refine ⟨fun groups hg => isSome_assocGet_aggregate_of_mem F groups g hg, ?_, ?_⟩
  · rw [hrun]
  · rw [hrun]
    exact (mem_setInsert_iff _ _ _).mpr (Or.inr rfl)

/-- C10 witness: a group holding only an unconfigured bodyfat reading on
1970-01-01 still yields an id-only upload and a ledger entry. -/
theorem C10_empty_day_record_uploaded_witness :
    (strOfDate (dateOfTimestamp bodyfatGroup.date) ∉ setOf ["1973-03-03"]) ∧
    ((runPipeline sampleFields okOracle false (some ["1973-03-03"])
        [bodyfatGroup]).uploads =
      [([("id", Val.str (strftime_Ymd (dateOfTimestamp bodyfatGroup.date)))],
        okOracle (strftime_Ymd (dateOfTimestamp bodyfatGroup.date)))] ∧
      strOfDate (dateOfTimestamp bodyfatGroup.date) ∈
        (runPipeline sampleFields okOracle false (some ["1973-03-03"])
          [bodyfatGroup]).ledger) :=
  ⟨by decide, (C10_empty_day_record_uploaded sampleFields okOracle bodyfatGroup
      ["1973-03-03"] (by decide) (by decide)).2⟩

end WithingsSyncer
